import Mathlib

/-!
Verification of the `efuse` one-shot latch library (`src/lib.rs`).

The library provides two latch types sharing one semantic model:
`Fuse` (exclusive ownership, plain `bool` flag) and `AtomicFuse`
(shared ownership, `AtomicBool` flag updated with sequentially
consistent operations).  Under sequential-consistency every atomic
operation of the source is a single indivisible step on the flag, so
the shallow embedding represents the `AtomicBool` as a plain `Bool`
and each method as a pure state transformer; a concurrent execution
of `zap_once` calls is modelled as an arbitrary interleaving of these
indivisible steps.
-/

namespace Efuse

/-- Error value returned when `zap_once` is called on an already
zapped fuse (`struct AlreadyZappedError` in the source, a zero-data
marker). -/
structure AlreadyZappedError where
  deriving DecidableEq

/-- `struct Fuse { initial_state: bool, zapped: bool }`. -/
structure Fuse where
  initial_state : Bool
  zapped : Bool
  deriving DecidableEq

namespace Fuse

/-- `Fuse::new`: initial state as given, `zapped = false`. -/
def new (initial_state : Bool) : Fuse :=
  { initial_state := initial_state, zapped := false }

/-- `Fuse::default` (derived `Default`): both fields take `bool::default() = false`. -/
def defaultFuse : Fuse :=
  { initial_state := false, zapped := false }

/-- `Fuse::as_bool`: `initial_state ^ zapped`. -/
def as_bool (f : Fuse) : Bool :=
  xor f.initial_state f.zapped

/-- `Fuse::zap`: `self.zapped |= true;` then return `self.initial_state ^ true`.
Returned as (return value, updated state). -/
def zap (f : Fuse) : Bool × Fuse :=
  let f' : Fuse := { f with zapped := f.zapped || true }
  (xor f.initial_state true, f')

/-- `Fuse::zap_once`: error if `self.zapped`, else delegate to `zap`. -/
def zap_once (f : Fuse) : Except AlreadyZappedError Bool × Fuse :=
  if f.zapped then
    (Except.error AlreadyZappedError.mk, f)
  else
    let r := f.zap
    (Except.ok r.1, r.2)

/-- `Fuse::is_zapped`: returns the `zapped` field. -/
def is_zapped (f : Fuse) : Bool :=
  f.zapped

/-- `impl From<bool> for Fuse`: `initial_state = b`, `zapped = false`. -/
def fromBool (b : Bool) : Fuse :=
  { initial_state := b, zapped := false }

/-- `impl Into<bool> for Fuse`: `self.initial_state ^ self.zapped`. -/
def intoBool (f : Fuse) : Bool :=
  xor f.initial_state f.zapped

/-- `impl PartialEq for Fuse` (derived): field-wise equality. -/
def beq (a b : Fuse) : Bool :=
  a.initial_state == b.initial_state && a.zapped == b.zapped

/-- `impl Hash for Fuse`: the data fed to the hasher, in order:
`initial_state`, then `is_zapped()`. -/
def hashData (f : Fuse) : Bool × Bool :=
  (f.initial_state, f.is_zapped)

/-- `impl Not for Fuse`: `!self.as_bool()`. -/
def notOp (f : Fuse) : Bool :=
  !f.as_bool

end Fuse

/-- `struct AtomicFuse { initial_state: bool, zapped: AtomicBool }`.
The `AtomicBool` is represented by its current value; every source
operation on it (`load`, `fetch_or`, `compare_and_swap`, all `SeqCst`)
is one indivisible step. -/
structure AtomicFuse where
  initial_state : Bool
  zapped : Bool
  deriving DecidableEq

namespace AtomicFuse

/-- `AtomicFuse::new`: initial state as given, `zapped = AtomicBool::new(false)`. -/
def new (initial_state : Bool) : AtomicFuse :=
  { initial_state := initial_state, zapped := false }

/-- `AtomicFuse::default` (derived `Default`): `false` for both fields. -/
def defaultFuse : AtomicFuse :=
  { initial_state := false, zapped := false }

/-- `AtomicFuse::as_bool`: `initial_state ^ zapped.load(SeqCst)`. -/
def as_bool (f : AtomicFuse) : Bool :=
  xor f.initial_state f.zapped

/-- `AtomicFuse::zap`: `zapped.fetch_or(true, SeqCst)` then return
`initial_state ^ true`. -/
def zap (f : AtomicFuse) : Bool × AtomicFuse :=
  let f' : AtomicFuse := { f with zapped := f.zapped || true }
  (xor f.initial_state true, f')

/-- `AtomicFuse::zap_once`: `compare_and_swap(false, true, SeqCst)`
returns the previous value of the flag and stores `true` when the
previous value was `false`; on previous `true` the call errors,
otherwise it returns `Ok(initial_state ^ true)`. -/
def zap_once (f : AtomicFuse) : Except AlreadyZappedError Bool × AtomicFuse :=
  let prev := f.zapped
  let f' : AtomicFuse := if f.zapped then f else { f with zapped := true }
  if prev then
    (Except.error AlreadyZappedError.mk, f')
  else
    (Except.ok (xor f.initial_state true), f')

/-- `AtomicFuse::is_zapped`: `zapped.load(SeqCst)`. -/
def is_zapped (f : AtomicFuse) : Bool :=
  f.zapped

/-- `impl From<bool> for AtomicFuse`: `initial_state = b`, fresh `false` flag. -/
def fromBool (b : Bool) : AtomicFuse :=
  { initial_state := b, zapped := false }

/-- `impl Into<bool> for AtomicFuse`: `initial_state ^ zapped.into_inner()`. -/
def intoBool (f : AtomicFuse) : Bool :=
  xor f.initial_state f.zapped

/-- `impl Clone for AtomicFuse`: snapshot the flag, build an independent fuse. -/
def clone (f : AtomicFuse) : AtomicFuse :=
  { initial_state := f.initial_state, zapped := f.zapped }

/-- `impl PartialEq for AtomicFuse`:
`self.is_zapped() == other.is_zapped() && self.initial_state == other.initial_state`. -/
def beq (a b : AtomicFuse) : Bool :=
  a.is_zapped == b.is_zapped && a.initial_state == b.initial_state

/-- `impl Hash for AtomicFuse`: the data fed to the hasher, in order:
`initial_state`, then `is_zapped()`. -/
def hashData (f : AtomicFuse) : Bool × Bool :=
  (f.initial_state, f.is_zapped)

/-- `impl Not for AtomicFuse`: `!self.as_bool()`. -/
def notOp (f : AtomicFuse) : Bool :=
  !f.as_bool

end AtomicFuse

/-- One method call on an already-constructed fuse, for lifetime traces.
The three query methods do not touch the state; `zap` and `zapOnce`
perform the corresponding mutation. -/
inductive Op where
  | initialState
  | asBool
  | isZapped
  | zap
  | zapOnce
  deriving DecidableEq

/-- State effect of one method call on a `Fuse`. -/
def Fuse.applyOp (f : Fuse) : Op → Fuse
  | Op.initialState => f
  | Op.asBool => f
  | Op.isZapped => f
  | Op.zap => (f.zap).2
  | Op.zapOnce => (f.zap_once).2

/-- State after a sequence of method calls on a `Fuse`. -/
def Fuse.runOps (f : Fuse) (ops : List Op) : Fuse :=
  ops.foldl Fuse.applyOp f

/-- State effect of one method call on an `AtomicFuse`. -/
def AtomicFuse.applyOp (f : AtomicFuse) : Op → AtomicFuse
  | Op.initialState => f
  | Op.asBool => f
  | Op.isZapped => f
  | Op.zap => (f.zap).2
  | Op.zapOnce => (f.zap_once).2

/-- State after a sequence of method calls on an `AtomicFuse`. -/
def AtomicFuse.runOps (f : AtomicFuse) (ops : List Op) : AtomicFuse :=
  ops.foldl AtomicFuse.applyOp f

/-- `k` calls of `AtomicFuse::zap_once` on one shared instance.  Each
call's `compare_and_swap` is a single indivisible step and
`initial_state` is immutable, so every interleaving of `k` concurrent
calls is this sequential composition; the list collects each call's
return value. -/
def AtomicFuse.race (f : AtomicFuse) : Nat → List (Except AlreadyZappedError Bool) × AtomicFuse
  | 0 => ([], f)
  | Nat.succ k =>
    let r := f.zap_once
    let rest := r.2.race k
    (r.1 :: rest.1, rest.2)

/-- `n` consecutive calls of `Fuse::zap`, collecting each return value. -/
def Fuse.zapN (f : Fuse) : Nat → List Bool × Fuse
  | 0 => ([], f)
  | Nat.succ k =>
    let r := f.zap
    let rest := r.2.zapN k
    (r.1 :: rest.1, rest.2)

/-- `n` consecutive calls of `AtomicFuse::zap`, collecting each return value. -/
def AtomicFuse.zapN (f : AtomicFuse) : Nat → List Bool × AtomicFuse
  | 0 => ([], f)
  | Nat.succ k =>
    let r := f.zap
    let rest := r.2.zapN k
    (r.1 :: rest.1, rest.2)

/-- Whether a `zap_once` result is `Ok` with the given payload. -/
def isOkVal (v : Bool) : Except AlreadyZappedError Bool → Bool
  | Except.ok w => v == w
  | Except.error _ => false

/-- Whether a `zap_once` result is `Err(AlreadyZappedError)`. -/
def isErr : Except AlreadyZappedError Bool → Bool
  | Except.ok _ => false
  | Except.error _ => true

instance : DecidableEq (Except AlreadyZappedError Bool) := fun a b =>
  match a, b with
  | Except.ok x, Except.ok y =>
    if h : x = y then Decidable.isTrue (by rw [h])
    else Decidable.isFalse (by intro hc; injection hc; contradiction)
  | Except.ok _, Except.error _ => Decidable.isFalse (fun hc => Except.noConfusion hc)
  | Except.error _, Except.ok _ => Decidable.isFalse (fun hc => Except.noConfusion hc)
  | Except.error x, Except.error y => Decidable.isTrue (by cases x; cases y; rfl)

/-! Helper lemmas shared by the claim theorems. -/

theorem Fuse.zap_once_of_zapped (f : Fuse) (h : f.zapped = true) :
    f.zap_once = (Except.error AlreadyZappedError.mk, f) := by
  simp [Fuse.zap_once, h]

theorem AtomicFuse.atomic_zap_once_of_zapped (f : AtomicFuse) (h : f.zapped = true) :
    f.zap_once = (Except.error AlreadyZappedError.mk, f) := by
  simp [AtomicFuse.zap_once, h]

theorem Fuse.applyOp_initial_state (f : Fuse) (op : Op) :
    (f.applyOp op).initial_state = f.initial_state := by
  cases hz : f.zapped <;>
    cases op <;>
      simp [Fuse.applyOp, Fuse.zap, Fuse.zap_once, hz]

theorem Fuse.applyOp_zapped_mono (f : Fuse) (op : Op) (h : f.zapped = true) :
    (f.applyOp op).zapped = true := by
  cases op <;> simp [Fuse.applyOp, Fuse.zap, Fuse.zap_once, h]

theorem Fuse.runOps_initial_state (f : Fuse) (ops : List Op) :
    (f.runOps ops).initial_state = f.initial_state := by
  induction ops generalizing f with
  | nil => rfl
  | cons op rest ih =>
    show ((f.applyOp op).runOps rest).initial_state = f.initial_state
    rw [ih, Fuse.applyOp_initial_state]

theorem Fuse.runOps_zapped_mono (f : Fuse) (ops : List Op) (h : f.zapped = true) :
    (f.runOps ops).zapped = true := by
  induction ops generalizing f with
  | nil => exact h
  | cons op rest ih =>
    show ((f.applyOp op).runOps rest).zapped = true
    exact ih _ (Fuse.applyOp_zapped_mono f op h)

theorem AtomicFuse.atomic_applyOp_initial_state (f : AtomicFuse) (op : Op) :
    (f.applyOp op).initial_state = f.initial_state := by
  cases hz : f.zapped <;>
    cases op <;>
      simp [AtomicFuse.applyOp, AtomicFuse.zap, AtomicFuse.zap_once, hz]

theorem AtomicFuse.atomic_applyOp_zapped_mono (f : AtomicFuse) (op : Op) (h : f.zapped = true) :
    (f.applyOp op).zapped = true := by
  cases op <;> simp [AtomicFuse.applyOp, AtomicFuse.zap, AtomicFuse.zap_once, h]

theorem AtomicFuse.atomic_runOps_initial_state (f : AtomicFuse) (ops : List Op) :
    (f.runOps ops).initial_state = f.initial_state := by
  induction ops generalizing f with
  | nil => rfl
  | cons op rest ih =>
    show ((f.applyOp op).runOps rest).initial_state = f.initial_state
    rw [ih, AtomicFuse.atomic_applyOp_initial_state]

theorem AtomicFuse.atomic_runOps_zapped_mono (f : AtomicFuse) (ops : List Op) (h : f.zapped = true) :
    (f.runOps ops).zapped = true := by
  induction ops generalizing f with
  | nil => exact h
  | cons op rest ih =>
    show ((f.applyOp op).runOps rest).zapped = true
    exact ih _ (AtomicFuse.atomic_applyOp_zapped_mono f op h)

theorem AtomicFuse.race_of_zapped (i : Bool) (k : Nat) :
    (AtomicFuse.mk i true).race k
      = (List.replicate k (Except.error AlreadyZappedError.mk), AtomicFuse.mk i true) := by
  induction k with
  | zero => rfl
  | succ k ih =>
    simp [AtomicFuse.race, AtomicFuse.zap_once, ih, List.replicate_succ]

theorem Fuse.zapN_of_zapped (i : Bool) (k : Nat) :
    (Fuse.mk i true).zapN k = (List.replicate k (!i), Fuse.mk i true) := by
  induction k with
  | zero => rfl
  | succ k ih =>
    simp [Fuse.zapN, Fuse.zap, ih, List.replicate_succ]

theorem AtomicFuse.atomic_zapN_of_zapped (i : Bool) (k : Nat) :
    (AtomicFuse.mk i true).zapN k = (List.replicate k (!i), AtomicFuse.mk i true) := by
  induction k with
  | zero => rfl
  | succ k ih =>
    simp [AtomicFuse.zapN, AtomicFuse.zap, ih, List.replicate_succ]

theorem countP_isOkVal_replicate_err (v : Bool) (k : Nat) :
    (List.replicate k (Except.error AlreadyZappedError.mk
      : Except AlreadyZappedError Bool)).countP (fun r => isOkVal v r) = 0 := by
  induction k with
  | zero => rfl
  | succ k ih =>
    rw [List.replicate_succ, List.countP_cons, ih]
    rfl

theorem countP_isErr_replicate_err (k : Nat) :
    (List.replicate k (Except.error AlreadyZappedError.mk
      : Except AlreadyZappedError Bool)).countP (fun r => isErr r) = k := by
  induction k with
  | zero => rfl
  | succ k ih =>
    rw [List.replicate_succ, List.countP_cons, ih]
    rfl

/-! Claim theorems. -/

/-- Claim C1: one-way latch invariant.  For both `Fuse` and `AtomicFuse`,
under any sequence of method calls on a freshly constructed latch:
`initial_state` stays equal to the construction argument, a `zapped`
flag that is `true` stays `true` under any further calls (so `as_bool`
changes at most once and only from `initial_state` to its negation),
and `as_bool` is fully determined as `initial_state` when unzapped and
its negation when zapped. -/
theorem c1_one_way_latch (i : Bool) (ops more : List Op) :
    ((Fuse.new i).runOps ops).initial_state = i ∧
    (((Fuse.new i).runOps ops).is_zapped = true →
      (((Fuse.new i).runOps ops).runOps more).is_zapped = true) ∧
    ((Fuse.new i).runOps ops).as_bool
      = (if ((Fuse.new i).runOps ops).is_zapped then !i else i) ∧
    ((AtomicFuse.new i).runOps ops).initial_state = i ∧
    (((AtomicFuse.new i).runOps ops).is_zapped = true →
      (((AtomicFuse.new i).runOps ops).runOps more).is_zapped = true) ∧
    ((AtomicFuse.new i).runOps ops).as_bool
      = (if ((AtomicFuse.new i).runOps ops).is_zapped then !i else i) := by
  have hf : ((Fuse.new i).runOps ops).initial_state = i := by
    rw [Fuse.runOps_initial_state]
    rfl
  have ha : ((AtomicFuse.new i).runOps ops).initial_state = i := by
    rw [AtomicFuse.atomic_runOps_initial_state]
    rfl
  refine ⟨hf, fun h => Fuse.runOps_zapped_mono _ more h, ?_, ha,
    fun h => AtomicFuse.atomic_runOps_zapped_mono _ more h, ?_⟩
  · cases hz : ((Fuse.new i).runOps ops).zapped <;>
      simp [Fuse.as_bool, Fuse.is_zapped, hf, hz]
  · cases hz : ((AtomicFuse.new i).runOps ops).zapped <;>
      simp [AtomicFuse.as_bool, AtomicFuse.is_zapped, ha, hz]

/-- Witness for C1: at `i = true`, `ops = [zap]`, `more = [zapOnce]`,
the sticky-flag implications are discharged on a concretely zapped latch. -/
theorem c1_one_way_latch_witness :
    (((Fuse.new true).runOps [Op.zap]).runOps [Op.zapOnce]).is_zapped = true ∧
    (((AtomicFuse.new true).runOps [Op.zap]).runOps [Op.zapOnce]).is_zapped = true := by
  have h := c1_one_way_latch true [Op.zap] [Op.zapOnce]
  exact ⟨h.2.1 (by decide), h.2.2.2.2.1 (by decide)⟩

/-- Claim C2: `zap_once` returns `Err(AlreadyZappedError)` iff
`is_zapped()` was true immediately before the call; otherwise it
returns `Ok(NOT initial_state)` and leaves the same state as `zap()`
would, for both `Fuse` and `AtomicFuse`. -/
theorem c2_zap_once_err_iff (f : Fuse) (g : AtomicFuse) :
    ((f.zap_once).1 = Except.error AlreadyZappedError.mk ↔ f.is_zapped = true) ∧
    (f.is_zapped = false →
      (f.zap_once).1 = Except.ok (!f.initial_state) ∧ (f.zap_once).2 = (f.zap).2) ∧
    ((g.zap_once).1 = Except.error AlreadyZappedError.mk ↔ g.is_zapped = true) ∧
    (g.is_zapped = false →
      (g.zap_once).1 = Except.ok (!g.initial_state) ∧ (g.zap_once).2 = (g.zap).2) := by
  obtain ⟨fi, fz⟩ := f
  obtain ⟨gi, gz⟩ := g
  cases fi <;> cases fz <;> cases gi <;> cases gz <;> decide

/-- Witness for C2: on unzapped latches with initial state `true`,
`zap_once` succeeds with the negated value. -/
theorem c2_zap_once_err_iff_witness :
    ((Fuse.new true).zap_once).1 = Except.ok false ∧
    ((AtomicFuse.new true).zap_once).1 = Except.ok false := by
  have h := c2_zap_once_err_iff (Fuse.new true) (AtomicFuse.new true)
  exact ⟨(h.2.1 rfl).1, (h.2.2.2 rfl).1⟩

/-- Claim C3: exactly one winner among `k ≥ 1` interleaved `zap_once`
calls on one shared `AtomicFuse` that starts unzapped: exactly one
call returns `Ok(NOT initial_state)`, the other `k - 1` return
`Err(AlreadyZappedError)`, afterwards `is_zapped()` is true, and no
call returns anything else. -/
theorem c3_exactly_one_winner (i : Bool) (k : Nat) (h : 1 ≤ k) :
    ((AtomicFuse.new i).race k).1.countP (fun r => isOkVal (!i) r) = 1 ∧
    ((AtomicFuse.new i).race k).1.countP (fun r => isErr r) = k - 1 ∧
    ((AtomicFuse.new i).race k).2.is_zapped = true ∧
    (∀ r ∈ ((AtomicFuse.new i).race k).1,
      r = Except.ok (!i) ∨ r = Except.error AlreadyZappedError.mk) := by
  obtain ⟨j, rfl⟩ : ∃ j, k = j + 1 := ⟨k - 1, by omega⟩
  have hz : (AtomicFuse.new i).zap_once = (Except.ok (!i), AtomicFuse.mk i true) := by
    simp [AtomicFuse.new, AtomicFuse.zap_once]
  have hrace : (AtomicFuse.new i).race (j + 1)
      = (Except.ok (!i) :: List.replicate j (Except.error AlreadyZappedError.mk),
         AtomicFuse.mk i true) := by
    simp [AtomicFuse.race, hz, AtomicFuse.race_of_zapped]
  rw [hrace]
  refine ⟨?_, ?_, rfl, ?_⟩
  · rw [List.countP_cons, countP_isOkVal_replicate_err]
    simp [isOkVal]
  · rw [List.countP_cons, countP_isErr_replicate_err]
    rfl
  · intro r hr
    rcases List.mem_cons.mp hr with h1 | h2
    · exact Or.inl h1
    · exact Or.inr (List.eq_of_mem_replicate h2)

/-- Witness for C3: three racing `zap_once` calls on a fuse with
initial state `false` produce one `Ok true`, two errors, and a zapped
final state. -/
theorem c3_exactly_one_winner_witness :
    ((AtomicFuse.new false).race 3).1.countP (fun r => isOkVal true r) = 1 ∧
    ((AtomicFuse.new false).race 3).1.countP (fun r => isErr r) = 2 ∧
    ((AtomicFuse.new false).race 3).2.is_zapped = true := by
  have h := c3_exactly_one_winner false 3 (by decide)
  exact ⟨h.1, h.2.1, h.2.2.1⟩

/-- Claim C4: a `zap_once` call on an already zapped latch returns
`Err(AlreadyZappedError)` and leaves the state (hence `initial_state`,
`zapped`, `as_bool`, `is_zapped`) exactly unchanged, for both types. -/
theorem c4_error_leaves_state (f : Fuse) (g : AtomicFuse)
    (hf : f.is_zapped = true) (hg : g.is_zapped = true) :
    f.zap_once = (Except.error AlreadyZappedError.mk, f) ∧
    g.zap_once = (Except.error AlreadyZappedError.mk, g) :=
  ⟨Fuse.zap_once_of_zapped f hf, AtomicFuse.atomic_zap_once_of_zapped g hg⟩

/-- Witness for C4: concretely zapped latches are untouched by the
failing `zap_once`. -/
theorem c4_error_leaves_state_witness :
    (Fuse.mk true true).zap_once = (Except.error AlreadyZappedError.mk, Fuse.mk true true) ∧
    (AtomicFuse.mk false true).zap_once
      = (Except.error AlreadyZappedError.mk, AtomicFuse.mk false true) :=
  c4_error_leaves_state (Fuse.mk true true) (AtomicFuse.mk false true) rfl rfl

/-- Claim C5: `zap` is idempotent.  Calling `zap` `n ≥ 1` times on a
latch constructed with initial state `i` leaves the same state as one
call: `is_zapped()` true and `as_bool() = NOT i`; every one of the `n`
calls returns `NOT i`, the value `as_bool()` reports afterwards.
Both for `Fuse` and `AtomicFuse`. -/
theorem c5_zap_idempotent (i : Bool) (n : Nat) (h : 1 ≤ n) :
    ((Fuse.new i).zapN n).2 = ((Fuse.new i).zap).2 ∧
    ((Fuse.new i).zapN n).2.is_zapped = true ∧
    ((Fuse.new i).zapN n).2.as_bool = !i ∧
    (∀ r ∈ ((Fuse.new i).zapN n).1, r = !i) ∧
    ((AtomicFuse.new i).zapN n).2 = ((AtomicFuse.new i).zap).2 ∧
    ((AtomicFuse.new i).zapN n).2.is_zapped = true ∧
    ((AtomicFuse.new i).zapN n).2.as_bool = !i ∧
    (∀ r ∈ ((AtomicFuse.new i).zapN n).1, r = !i) := by
  obtain ⟨j, rfl⟩ : ∃ j, n = j + 1 := ⟨n - 1, by omega⟩
  have hf1 : (Fuse.new i).zap = (!i, Fuse.mk i true) := by
    simp [Fuse.new, Fuse.zap]
  have ha1 : (AtomicFuse.new i).zap = (!i, AtomicFuse.mk i true) := by
    simp [AtomicFuse.new, AtomicFuse.zap]
  have hf : (Fuse.new i).zapN (j + 1) = ((!i) :: List.replicate j (!i), Fuse.mk i true) := by
    simp [Fuse.zapN, hf1, Fuse.zapN_of_zapped]
  have ha : (AtomicFuse.new i).zapN (j + 1)
      = ((!i) :: List.replicate j (!i), AtomicFuse.mk i true) := by
    simp [AtomicFuse.zapN, ha1, AtomicFuse.atomic_zapN_of_zapped]
  rw [hf, ha, hf1, ha1]
  refine ⟨rfl, rfl, ?_, ?_, rfl, rfl, ?_, ?_⟩
  · simp [Fuse.as_bool]
  · intro r hr
    rcases List.mem_cons.mp hr with h1 | h2
    · exact h1
    · exact List.eq_of_mem_replicate h2
  · simp [AtomicFuse.as_bool]
  · intro r hr
    rcases List.mem_cons.mp hr with h1 | h2
    · exact h1
    · exact List.eq_of_mem_replicate h2

/-- Witness for C5: two consecutive `zap` calls from initial state
`false` leave the once-zapped state and both return `true`. -/
theorem c5_zap_idempotent_witness :
    ((Fuse.new false).zapN 2).2 = ((Fuse.new false).zap).2 ∧
    ((Fuse.new false).zapN 2).2.as_bool = true ∧
    ((AtomicFuse.new false).zapN 2).2 = ((AtomicFuse.new false).zap).2 ∧
    ((AtomicFuse.new false).zapN 2).2.as_bool = true := by
  have h := c5_zap_idempotent false 2 (by decide)
  exact ⟨h.1, h.2.2.1, h.2.2.2.2.1, h.2.2.2.2.2.2.1⟩

/-- Claim C6: construction postcondition.  For each initial state `i`,
`new(i)` yields `initial_state() = i`, `as_bool() = i`,
`is_zapped() = false`, and default construction equals `new(false)`,
for both `Fuse` and `AtomicFuse`. -/
theorem c6_construction (i : Bool) :
    (Fuse.new i).initial_state = i ∧
    (Fuse.new i).as_bool = i ∧
    (Fuse.new i).is_zapped = false ∧
    Fuse.defaultFuse = Fuse.new false ∧
    (AtomicFuse.new i).initial_state = i ∧
    (AtomicFuse.new i).as_bool = i ∧
    (AtomicFuse.new i).is_zapped = false ∧
    AtomicFuse.defaultFuse = AtomicFuse.new false := by
  cases i <;> decide

/-- Claim C7: conversion round-trip.  Converting any latch (zapped or
not) to a boolean and building a new latch from it gives an unzapped
latch whose initial state is the converted value, i.e. exactly
`new(as_bool())`; the zapped flag is not preserved. -/
theorem c7_round_trip (f : Fuse) (g : AtomicFuse) :
    Fuse.fromBool f.intoBool = Fuse.new f.as_bool ∧
    (Fuse.fromBool f.intoBool).zapped = false ∧
    (Fuse.fromBool f.intoBool).initial_state = f.as_bool ∧
    AtomicFuse.fromBool g.intoBool = AtomicFuse.new g.as_bool ∧
    (AtomicFuse.fromBool g.intoBool).zapped = false ∧
    (AtomicFuse.fromBool g.intoBool).initial_state = g.as_bool := by
  obtain ⟨fi, fz⟩ := f
  obtain ⟨gi, gz⟩ := g
  cases fi <;> cases fz <;> cases gi <;> cases gz <;> decide

/-- Claim C8: structural equality.  For both types, equality holds iff
`initial_state` and `is_zapped()` both match; in particular a latch
built with `true` and then zapped differs from a latch built with
`false` and never zapped, though both report `as_bool() = false`. -/
theorem c8_structural_equality (a b : Fuse) (c d : AtomicFuse) :
    (Fuse.beq a b = true ↔ (a.initial_state = b.initial_state ∧ a.is_zapped = b.is_zapped)) ∧
    (AtomicFuse.beq c d = true
      ↔ (c.initial_state = d.initial_state ∧ c.is_zapped = d.is_zapped)) ∧
    Fuse.beq ((Fuse.new true).zap).2 (Fuse.new false) = false ∧
    ((Fuse.new true).zap).2.as_bool = false ∧
    (Fuse.new false).as_bool = false ∧
    AtomicFuse.beq ((AtomicFuse.new true).zap).2 (AtomicFuse.new false) = false ∧
    ((AtomicFuse.new true).zap).2.as_bool = false ∧
    (AtomicFuse.new false).as_bool = false := by
  obtain ⟨ai, az⟩ := a
  obtain ⟨bi, bz⟩ := b
  obtain ⟨ci, cz⟩ := c
  obtain ⟨di, dz⟩ := d
  cases ai <;> cases az <;> cases bi <;> cases bz <;>
    cases ci <;> cases cz <;> cases di <;> cases dz <;> decide

/-- Claim C9: sequential equivalence of the two variants.  From any
pair of corresponding states (same `initial_state` value `i`, same
zapped value `z`), each operation returns the same result on `Fuse`
and `AtomicFuse` and leads to corresponding states again. -/
theorem c9_sequential_equivalence (i z : Bool) :
    (Fuse.mk i z).initial_state = (AtomicFuse.mk i z).initial_state ∧
    (Fuse.mk i z).as_bool = (AtomicFuse.mk i z).as_bool ∧
    (Fuse.mk i z).is_zapped = (AtomicFuse.mk i z).is_zapped ∧
    ((Fuse.mk i z).zap).1 = ((AtomicFuse.mk i z).zap).1 ∧
    ((Fuse.mk i z).zap).2.initial_state = ((AtomicFuse.mk i z).zap).2.initial_state ∧
    ((Fuse.mk i z).zap).2.zapped = ((AtomicFuse.mk i z).zap).2.zapped ∧
    ((Fuse.mk i z).zap_once).1 = ((AtomicFuse.mk i z).zap_once).1 ∧
    ((Fuse.mk i z).zap_once).2.initial_state
      = ((AtomicFuse.mk i z).zap_once).2.initial_state ∧
    ((Fuse.mk i z).zap_once).2.zapped = ((AtomicFuse.mk i z).zap_once).2.zapped := by
  cases i <;> cases z <;> decide

/-- Claim C10: hash is consistent with equality.  For both types,
latches that compare equal feed identical data, the pair
`(initial_state, is_zapped())`, to the hasher. -/
theorem c10_hash_consistent (a b : Fuse) (c d : AtomicFuse)
    (hab : Fuse.beq a b = true) (hcd : AtomicFuse.beq c d = true) :
    Fuse.hashData a = Fuse.hashData b ∧ AtomicFuse.hashData c = AtomicFuse.hashData d := by
  revert hab hcd
  obtain ⟨ai, az⟩ := a
  obtain ⟨bi, bz⟩ := b
  obtain ⟨ci, cz⟩ := c
  obtain ⟨di, dz⟩ := d
  cases ai <;> cases az <;> cases bi <;> cases bz <;>
    cases ci <;> cases cz <;> cases di <;> cases dz <;> decide

/-- Witness for C10: equal latches hash the same at a concrete pair. -/
theorem c10_hash_consistent_witness :
    Fuse.hashData (Fuse.mk true true) = Fuse.hashData (Fuse.mk true true) ∧
    AtomicFuse.hashData (AtomicFuse.mk false true)
      = AtomicFuse.hashData (AtomicFuse.mk false true) :=
  c10_hash_consistent (Fuse.mk true true) (Fuse.mk true true)
    (AtomicFuse.mk false true) (AtomicFuse.mk false true) rfl rfl

end Efuse
